import Mathlib

set_option maxHeartbeats 1000000

/-!
Verification of the raffle program (programs/raffle/src/lib.rs).

The program is an Anchor/Solana escrow-backed raffle.  We shallow-embed the
instruction handlers as pure Lean functions over an explicit account state.
Solana public keys are modelled as natural numbers; `u64` arithmetic is
modelled on `Nat` with an explicit reduction modulo `2 ^ 64` wherever the
source performs `u64` addition or multiplication on caller-controlled data.
Fallible handlers return `Except Err σ`.

The crate modules `account.rs`, `constants.rs`, `error.rs` and `utils.rs` are
not present under src; the pieces of them that the handlers use (the
`RafflePool` layout, its `append` method, the error enum and the token mint
constant) are modelled from the specification, and each such definition is
marked in its doc comment.  The SPL-token transfer/burn CPI is external to the
repository; per the specification it is a trusted all-or-nothing
asset-transfer service, modelled by `splTransfer`.
-/

/-- Identities (Solana public keys) are modelled as natural numbers. -/
abbrev Identity := Nat

/-- Modulus of 64-bit unsigned arithmetic. -/
def U64M : Nat := 2 ^ 64

/-- Error kinds surfaced by the program.  The raffle-specific constructors
mirror the RaffleError enum of the crate (its error module is not under src;
the variant names are exactly those raised in lib.rs).  The extra constructor
tokenInsufficientFunds models the external SPL-token transfer or burn aborting
the whole call when the source account lacks funds, per the all-or-nothing
semantics the specification attributes to the asset-transfer collaborator. -/
inductive Err where
  | MaxEntrantsTooLarge
  | EndTimeError
  | NotREAPToken
  | RaffleEnded
  | NotEnoughTicketsLeft
  | NotEnoughSOL
  | RaffleNotEnded
  | NotWinner
  | NotCreator
  | OtherEntrants
  | tokenInsufficientFunds
deriving DecidableEq

/-- The singleton global configuration account (GlobalPool).  Its layout file
account.rs is not under src; the single field is the one lib.rs writes. -/
structure GlobalPool where
  super_admin : Identity
deriving DecidableEq

/-- Modelled from the spec: the per-raffle account (RafflePool in the absent
account.rs).  Every field below is read or written by lib.rs.  The fixed
capacity arrays entrants, winner and claimed_winner are modelled as lists
(backing stores with a live-count cursor); `count` is the number of live
entrant slots, entries at or beyond `count` are stale. -/
structure RafflePool where
  creator : Identity
  nft_mint : Identity
  ticket_price_reap : Nat
  ticket_price_sol : Nat
  end_timestamp : Int
  max_entrants : Nat
  winner_count : Nat
  whitelisted : Nat
  no_repeat : Nat
  count : Nat
  entrants : List Identity
  winner : List Identity
  claimed_winner : List Nat
deriving DecidableEq

/-- Modelled from the spec: the external all-or-nothing asset/token transfer
service (the SPL-token program reached by CPI, outside this repository).
Moving `amt` units fails, aborting the caller, when the source holds less
than `amt`; otherwise it debits the source and credits the destination. -/
def splTransfer (src dst amt : Nat) : Except Err (Nat × Nat) :=
  if src < amt then .error .tokenInsufficientFunds
  else .ok (src - amt, (dst + amt) % U64M)

/-- The initialize handler: unconditionally stores the calling admin as the
global super_admin (lib.rs lines 28-32).  The account constraint
init_if_needed only creates the account when absent; the handler body runs on
every invocation. -/
def initProject (admin : Identity) (global_authority : GlobalPool) : GlobalPool :=
  { global_authority with super_admin := admin }

/-- The zero-initialized RafflePool produced by load_init on a fresh
zero-filled account.  The entrants capacity 2000 is the hard cap of the
program; the winner and claimed_winner capacities (their layout file is
absent) are also taken as 2000, large enough for any clamp-bounded draw. -/
def zeroRaffle : RafflePool :=
  { creator := 0, nft_mint := 0, ticket_price_reap := 0, ticket_price_sol := 0,
    end_timestamp := 0, max_entrants := 0, winner_count := 0, whitelisted := 0,
    no_repeat := 0, count := 0,
    entrants := List.replicate 2000 0,
    winner := List.replicate 2000 0,
    claimed_winner := List.replicate 2000 0 }

/-- create_raffle (lib.rs lines 46-91): validates the entrant cap and the end
time, escrows one unit of the asset from the creator account into program
custody, then populates the zero-initialized record.  Returns the record and
the two asset-account balances. -/
def create_raffle (timestamp : Int) (admin nft_mint : Identity)
    (ticket_price_reap ticket_price_sol : Nat) (end_timestamp : Int)
    (winner_count whitelisted max_entrants : Nat)
    (ownerNft escrowNft : Nat) : Except Err (RafflePool × Nat × Nat) :=
  if max_entrants > 2000 then .error .MaxEntrantsTooLarge
  else if timestamp > end_timestamp then .error .EndTimeError
  else
    match splTransfer ownerNft escrowNft 1 with
    | .error e => .error e
    | .ok (src, dst) =>
      .ok ({ zeroRaffle with
              creator := admin, nft_mint := nft_mint,
              ticket_price_reap := ticket_price_reap,
              ticket_price_sol := ticket_price_sol,
              end_timestamp := end_timestamp,
              max_entrants := max_entrants,
              winner_count := winner_count,
              whitelisted := whitelisted }, src, dst)

/-- Modelled from the spec: the fixed designated ticket currency mint
(REAP_TOKEN_MINT in the absent constants.rs).  Its concrete key is
irrelevant to the logic; only equality against it is tested. -/
def REAP_TOKEN_MINT : Identity := 314159

/-- The duplicate-buyer scan of buy_tickets (lib.rs lines 123-128): iterates
i over 0..count and sets index to i+1 at every slot holding the buyer, so the
result is nonzero exactly when the buyer already holds a live ticket. -/
def scanIndex (entrants : List Identity) (count : Nat) (buyer : Identity) : Nat :=
  (List.range count).foldl
    (fun index i => if entrants.getD i 0 = buyer then i + 1 else index) 0

/-- Modelled from the spec: RafflePool.append from the absent account.rs —
writes the buyer identity into the entrant slot at the live cursor `count`
and increments `count` (append-only ledger). -/
def RafflePool.append (r : RafflePool) (buyer : Identity) : RafflePool :=
  { r with entrants := r.entrants.set r.count buyer, count := r.count + 1 }

/-- The append loop of buy_tickets (lib.rs lines 134-136): `amount`
repetitions of append. -/
def appendN (r : RafflePool) (buyer : Identity) : Nat → RafflePool
  | 0 => r
  | n + 1 => appendN (r.append buyer) buyer n

/-- The no_repeat update of buy_tickets (lib.rs lines 120-132): on an empty
ledger the counter is set to 1; otherwise the duplicate scan runs and the
counter is incremented exactly when the scan found the buyer. -/
def noRepeatUpdate (r : RafflePool) (buyer : Identity) : RafflePool :=
  if r.count = 0 then { r with no_repeat := 1 }
  else if scanIndex r.entrants r.count buyer ≠ 0 then
    { r with no_repeat := (r.no_repeat + 1) % U64M }
  else r

/-- buy_tickets (lib.rs lines 100-164): checks the ticket currency, the end
time, the remaining capacity (strict: count + amount must stay below
max_entrants, with u64 wrap-around made explicit) and the buyer's lamport
balance; updates the no_repeat counter from the duplicate scan; appends
`amount` copies of the buyer; burns amount * ticket_price_reap of the ticket
currency when nonzero (a failed burn aborts the whole call, modelled by the
balance guard).  The lamport transfer to the creator is covered by the
NotEnoughSOL pre-check. -/
def buy_tickets (timestamp : Int) (buyer token_mint : Identity)
    (buyerLamports buyerReapBalance amount : Nat) (r : RafflePool) :
    Except Err RafflePool :=
  if token_mint ≠ REAP_TOKEN_MINT then .error .NotREAPToken
  else if timestamp > r.end_timestamp then .error .RaffleEnded
  else if (r.count + amount) % U64M ≥ r.max_entrants then .error .NotEnoughTicketsLeft
  else if buyerLamports < (amount * r.ticket_price_sol) % U64M then
    .error .NotEnoughSOL
  else if buyerReapBalance < (amount * r.ticket_price_reap) % U64M then
    .error .tokenInsufficientFunds
  else
    .ok (appendN (noRepeatUpdate r buyer) buyer amount)

/-- The index-mixing arithmetic of reveal_winner (lib.rs lines 186-191): the
u64 codes of the first seven characters of the derived address string are
multiplied together (mul starts at 1) and the code of the eighth character is
added, in wrapping u64 arithmetic. -/
def charMix (char_vec : List Char) : Nat :=
  ((List.range 7).foldl
      (fun mul i => (mul * (char_vec.getD i 'A').toNat) % U64M) 1
    + (char_vec.getD 7 'A').toNat) % U64M

/-- One iteration of the draw loop of reveal_winner (lib.rs lines 181-196).
The player address comes from Pubkey.find_program_address applied to the
fixed RANDOM_SEED constant together with the decimal string of the call
timestamp, under the fixed program id; since seed and program id are
constants, that derivation is an abstract function deriveAddr of the
timestamp alone, and its arguments do not mention the loop index j.  The
iteration mixes the first eight character codes of the address string,
reduces modulo the current live count to get winner_index, records the
chosen entrant into winner slot j, swap-removes the chosen entrant slot
(overwriting it with the last live slot) and decrements count. -/
def drawStep (deriveAddr : Int → String) (timestamp : Int)
    (st : RafflePool) (j : Nat) : RafflePool :=
  let player_address := deriveAddr timestamp
  let char_vec : List Char := player_address.data
  let mul := charMix char_vec
  let winner_index := mul % st.count
  { st with
    winner := st.winner.set j (st.entrants.getD winner_index 0),
    entrants := st.entrants.set winner_index (st.entrants.getD (st.count - 1) 0),
    count := st.count - 1 }

/-- The winner_count clamp at the head of reveal_winner (lib.rs lines
177-179): winner_count is lowered to count when it exceeds it, never
raised. -/
def clampWinnerCount (r : RafflePool) : RafflePool :=
  if r.count < r.winner_count then { r with winner_count := r.count } else r

/-- The draw loop of reveal_winner run for n iterations (indices 0..n). -/
def revealFold (deriveAddr : Int → String) (timestamp : Int)
    (r1 : RafflePool) (n : Nat) : RafflePool :=
  (List.range n).foldl (drawStep deriveAddr timestamp) r1

/-- reveal_winner (lib.rs lines 170-199): rejects calls before the end time,
clamps winner_count down to count, then runs the draw loop winner_count
times. -/
def reveal_winner (deriveAddr : Int → String) (timestamp : Int)
    (r : RafflePool) : Except Err RafflePool :=
  if timestamp < r.end_timestamp then .error .RaffleNotEnded
  else
    let r1 := clampWinnerCount r
    .ok (revealFold deriveAddr timestamp r1 r1.winner_count)

/-- The WhitelistSlots claim loop of claim_reward (lib.rs lines 239-243):
marks claimed every winner slot holding the caller. -/
def claimWl (r : RafflePool) (claimer : Identity) : List Nat :=
  (List.range r.winner_count).foldl
    (fun cw i => if r.winner.getD i 0 = claimer then cw.set i 1 else cw)
    r.claimed_winner

/-- claim_reward (lib.rs lines 207-246): rejects calls before the end time;
in SingleAsset mode (whitelisted = 1) only the caller equal to winner slot 0
may claim — the escrowed asset is transferred to the claimer (a CPI whose
failure aborts the call) and claimed_winner slot 0 is set; otherwise every
winner slot holding the caller is marked claimed and no asset moves. -/
def claim_reward (timestamp : Int) (claimer : Identity)
    (escrowNft claimerNft : Nat) (r : RafflePool) :
    Except Err (RafflePool × Nat × Nat) :=
  if timestamp < r.end_timestamp then .error .RaffleNotEnded
  else if r.whitelisted = 1 then
    if r.winner.getD 0 0 ≠ claimer then .error .NotWinner
    else
      match splTransfer escrowNft claimerNft 1 with
      | .error e => .error e
      | .ok (src, dst) =>
        .ok ({ r with claimed_winner := r.claimed_winner.set 0 1 }, src, dst)
  else
    .ok ({ r with claimed_winner := claimWl r claimer }, escrowNft, claimerNft)

/-- withdraw_nft (lib.rs lines 253-289): rejects calls before the end time,
callers other than the creator (NotCreator) and raffles with live entrants
(OtherEntrants); otherwise transfers the escrowed asset back to the caller
and writes the sentinel 3 into whitelisted (the retired flag). -/
def withdraw_nft (timestamp : Int) (claimer : Identity)
    (escrowNft claimerNft : Nat) (r : RafflePool) :
    Except Err (RafflePool × Nat × Nat) :=
  if timestamp < r.end_timestamp then .error .RaffleNotEnded
  else if r.creator ≠ claimer then .error .NotCreator
  else if r.count ≠ 0 then .error .OtherEntrants
  else
    match splTransfer escrowNft claimerNft 1 with
    | .error e => .error e
    | .ok (src, dst) => .ok ({ r with whitelisted := 3 }, src, dst)

/-- A small concrete raffle used by witnesses: 3 live entrants out of a
capacity-6 backing store, max_entrants 5, deadline at time 20. -/
def raffleA : RafflePool :=
  { creator := 9, nft_mint := 8, ticket_price_reap := 2, ticket_price_sol := 3,
    end_timestamp := 20, max_entrants := 5, winner_count := 2, whitelisted := 0,
    no_repeat := 0, count := 3, entrants := [11, 22, 11, 0, 0, 0],
    winner := [0, 0, 0], claimed_winner := [0, 0, 0] }

/-- A concrete SingleAsset raffle after a draw, used by witnesses: winner
slot 0 holds identity 77, prize mode whitelisted = 1. -/
def raffleB : RafflePool :=
  { creator := 9, nft_mint := 8, ticket_price_reap := 2, ticket_price_sol := 3,
    end_timestamp := 20, max_entrants := 5, winner_count := 1, whitelisted := 1,
    no_repeat := 0, count := 2, entrants := [11, 22, 11, 0, 0, 0],
    winner := [77, 0, 0], claimed_winner := [0, 0, 0] }

/-- A concrete zero-entrant raffle, used by witnesses for the creator
withdrawal path. -/
def raffleC : RafflePool :=
  { creator := 9, nft_mint := 8, ticket_price_reap := 2, ticket_price_sol := 3,
    end_timestamp := 20, max_entrants := 5, winner_count := 1, whitelisted := 0,
    no_repeat := 0, count := 0, entrants := [0, 0, 0, 0, 0, 0],
    winner := [0, 0, 0], claimed_winner := [0, 0, 0] }

/-- A concrete address-derivation function used by witnesses: every
timestamp derives the same 8-character ASCII string (any deterministic
function of the timestamp is admissible here, since find_program_address is
external to the repository). -/
def deriveA : Int → String := fun _ => "ABCDEFGH"

theorem appendN_count (buyer : Identity) :
    ∀ (n : Nat) (r : RafflePool), (appendN r buyer n).count = r.count + n := by
  intro n
  induction n with
  | zero => intro r; simp [appendN]
  | succ m ih =>
    intro r
    simp [appendN, ih, RafflePool.append]
    omega

theorem appendN_entrants_length (buyer : Identity) :
    ∀ (n : Nat) (r : RafflePool),
      (appendN r buyer n).entrants.length = r.entrants.length := by
  intro n
  induction n with
  | zero => intro r; simp [appendN]
  | succ m ih =>
    intro r
    simp [appendN, ih, RafflePool.append]

theorem appendN_keeps (buyer : Identity) :
    ∀ (n : Nat) (r : RafflePool),
      (appendN r buyer n).max_entrants = r.max_entrants ∧
      (appendN r buyer n).no_repeat = r.no_repeat ∧
      (appendN r buyer n).end_timestamp = r.end_timestamp := by
  intro n
  induction n with
  | zero => intro r; simp [appendN]
  | succ m ih =>
    intro r
    simpa [appendN, RafflePool.append] using ih (r.append buyer)

/-- C3: buy_tickets fails with NotEnoughTicketsLeft exactly when
count + amount ≥ maxEntrants (reaching maxEntrants exactly is rejected), the
earlier guards (ticket currency, end time) being passed and the u64 sum not
wrapping; consequently every successful purchase leaves count ≤ maxEntrants
(indeed strictly below). -/
theorem buy_tickets_capacity_guard (timestamp : Int) (buyer : Identity)
    (buyerLamports buyerReapBalance amount : Nat) (r : RafflePool)
    (htime : ¬ timestamp > r.end_timestamp)
    (hov : r.count + amount < U64M) :
    (buy_tickets timestamp buyer REAP_TOKEN_MINT buyerLamports buyerReapBalance
        amount r = .error .NotEnoughTicketsLeft ↔
      r.count + amount ≥ r.max_entrants) ∧
    (∀ r2, buy_tickets timestamp buyer REAP_TOKEN_MINT buyerLamports
        buyerReapBalance amount r = .ok r2 → r2.count ≤ r.max_entrants) := by
  have hmod : (r.count + amount) % U64M = r.count + amount := Nat.mod_eq_of_lt hov
  have hmint : ¬ (REAP_TOKEN_MINT ≠ REAP_TOKEN_MINT) := fun h => h rfl
  have e1 : buy_tickets timestamp buyer REAP_TOKEN_MINT buyerLamports
      buyerReapBalance amount r =
      (if r.count + amount ≥ r.max_entrants then .error .NotEnoughTicketsLeft
       else if buyerLamports < (amount * r.ticket_price_sol) % U64M then
         .error .NotEnoughSOL
       else if buyerReapBalance < (amount * r.ticket_price_reap) % U64M then
         .error .tokenInsufficientFunds
       else .ok (appendN (noRepeatUpdate r buyer) buyer amount)) := by
    unfold buy_tickets
    rw [if_neg hmint, if_neg htime, hmod]
  rw [e1]
  by_cases hge : r.count + amount ≥ r.max_entrants
  · rw [if_pos hge]
    exact ⟨⟨fun _ => hge, fun _ => rfl⟩, fun r2 h => by cases h⟩
  · rw [if_neg hge]
    refine ⟨⟨fun h => ?_, fun h => absurd h hge⟩, fun r2 h => ?_⟩
    · by_cases h1 : buyerLamports < (amount * r.ticket_price_sol) % U64M
      · rw [if_pos h1] at h; cases h
      · rw [if_neg h1] at h
        by_cases h2 : buyerReapBalance < (amount * r.ticket_price_reap) % U64M
        · rw [if_pos h2] at h; cases h
        · rw [if_neg h2] at h; cases h
    · by_cases h1 : buyerLamports < (amount * r.ticket_price_sol) % U64M
      · rw [if_pos h1] at h; cases h
      · rw [if_neg h1] at h
        by_cases h2 : buyerReapBalance < (amount * r.ticket_price_reap) % U64M
        · rw [if_pos h2] at h; cases h
        · rw [if_neg h2] at h
          cases h
          rw [appendN_count]
          have hc : (noRepeatUpdate r buyer).count = r.count := by
            unfold noRepeatUpdate
            split
            · rename_i h0; simp [h0]
            · split <;> rfl
          rw [hc]
          omega

/-- C3 witness: at raffleA (count 3, max_entrants 5), buying 2 tickets would
reach the cap and the theorem instance applies with its hypotheses
discharged concretely. -/
theorem buy_tickets_capacity_guard_witness :
    (buy_tickets 10 33 REAP_TOKEN_MINT 100 100 2 raffleA =
        .error .NotEnoughTicketsLeft ↔ raffleA.count + 2 ≥ raffleA.max_entrants) ∧
    (∀ r2, buy_tickets 10 33 REAP_TOKEN_MINT 100 100 2 raffleA = .ok r2 →
        r2.count ≤ raffleA.max_entrants) :=
  buy_tickets_capacity_guard 10 33 100 100 2 raffleA (by decide) (by decide)

theorem getD_set_self (l : List Nat) (i : Nat) (a d : Nat) (h : i < l.length) :
    (l.set i a).getD i d = a := by
  simp [List.getD_eq_getElem?_getD, List.getElem?_set_self', h]

theorem getD_set_ne (l : List Nat) (i j : Nat) (a d : Nat) (h : i ≠ j) :
    (l.set i a).getD j d = l.getD j d := by
  simp [List.getD_eq_getElem?_getD, List.getElem?_set_ne h]

/-- C9 counterexample: re-invoking the initialize handler on an
already-initialized GlobalConfig whose stored administrator is 0, with a
caller whose identity is 1, changes the stored super_admin — so
re-invocation is not a no-op. -/
theorem initProject_reinit_not_noop :
    (initProject 1 { super_admin := 0 }).super_admin ≠
      ({ super_admin := 0 } : GlobalPool).super_admin := by
  decide

/-- C9 amended: the initialize handler (whose account is created with
init_if_needed, so the body runs on every invocation) always overwrites the
stored administrator with the calling admin; hence re-invocation leaves
super_admin unchanged exactly when the caller equals the stored
administrator, and is an overwrite for every other caller. -/
theorem initProject_overwrites_admin (admin : Identity) (g : GlobalPool) :
    (initProject admin g).super_admin = admin ∧
    ((initProject admin g).super_admin = g.super_admin ↔
      admin = g.super_admin) := by
  exact ⟨rfl, Iff.rfl⟩

/-- C6: create_raffle rejects every max_entrants above 2000 with
MaxEntrantsTooLarge; rejects, for in-range max_entrants, every call whose
current time is past end_timestamp with EndTimeError (in both failure cases
the handler returns before any field of the zero-initialized record is
populated, so the record is left unpopulated); and accepts max_entrants =
2000 when the deadline is not in the past and the escrow account can be
funded, populating the record from the arguments. -/
theorem create_raffle_validation (timestamp : Int) (admin nft_mint : Identity)
    (tpr tps : Nat) (end_timestamp : Int) (wc wl : Nat)
    (ownerNft escrowNft : Nat) :
    (∀ me, me > 2000 →
      create_raffle timestamp admin nft_mint tpr tps end_timestamp wc wl me
        ownerNft escrowNft = .error .MaxEntrantsTooLarge) ∧
    (∀ me, me ≤ 2000 → timestamp > end_timestamp →
      create_raffle timestamp admin nft_mint tpr tps end_timestamp wc wl me
        ownerNft escrowNft = .error .EndTimeError) ∧
    (¬ timestamp > end_timestamp → 1 ≤ ownerNft →
      create_raffle timestamp admin nft_mint tpr tps end_timestamp wc wl 2000
        ownerNft escrowNft =
        .ok ({ zeroRaffle with
                creator := admin, nft_mint := nft_mint,
                ticket_price_reap := tpr, ticket_price_sol := tps,
                end_timestamp := end_timestamp, max_entrants := 2000,
                winner_count := wc, whitelisted := wl },
             ownerNft - 1, (escrowNft + 1) % U64M)) := by
  refine ⟨fun me hme => ?_, fun me hme ht => ?_, fun ht hfund => ?_⟩
  · unfold create_raffle
    rw [if_pos hme]
  · unfold create_raffle
    rw [if_neg (by omega), if_pos ht]
  · unfold create_raffle splTransfer
    rw [if_neg (by omega), if_neg ht, if_neg (by omega)]

/-- C6 witness: max_entrants 2001 is rejected, a call at time 30 past the
deadline 20 is rejected with EndTimeError, and max_entrants 2000 at time 10
with a funded escrow source succeeds. -/
theorem create_raffle_validation_witness :
    (create_raffle 10 9 8 1 1 20 2 1 2001 5 0 = .error .MaxEntrantsTooLarge) ∧
    (create_raffle 30 9 8 1 1 20 2 1 2000 5 0 = .error .EndTimeError) ∧
    (create_raffle 10 9 8 1 1 20 2 1 2000 5 0 =
      .ok ({ zeroRaffle with
              creator := 9, nft_mint := 8,
              ticket_price_reap := 1, ticket_price_sol := 1,
              end_timestamp := 20, max_entrants := 2000,
              winner_count := 2, whitelisted := 1 }, 4, 1 % U64M)) :=
  ⟨(create_raffle_validation 10 9 8 1 1 20 2 1 5 0).1 2001 (by decide),
   (create_raffle_validation 30 9 8 1 1 20 2 1 5 0).2.1 2000 (by decide)
     (by decide),
   (create_raffle_validation 10 9 8 1 1 20 2 1 5 0).2.2 (by decide) (by decide)⟩

/-- C5: withdraw_nft called at or after the end time fails with NotCreator
for every caller other than the creator; fails with OtherEntrants for the
creator while live entrants remain (count ≠ 0); and with count = 0 and a
funded escrow it succeeds for the creator, transfers the escrowed asset back
(escrow balance decreases by one, the creator account gains one) and writes
the retirement sentinel 3 into the whitelisted field. -/
theorem withdraw_nft_resolution (timestamp : Int) (r : RafflePool)
    (escrowNft claimerNft : Nat)
    (htime : ¬ timestamp < r.end_timestamp) :
    (∀ claimer, r.creator ≠ claimer →
      withdraw_nft timestamp claimer escrowNft claimerNft r =
        .error .NotCreator) ∧
    (r.count ≠ 0 →
      withdraw_nft timestamp r.creator escrowNft claimerNft r =
        .error .OtherEntrants) ∧
    (r.count = 0 → 1 ≤ escrowNft →
      withdraw_nft timestamp r.creator escrowNft claimerNft r =
        .ok ({ r with whitelisted := 3 }, escrowNft - 1,
             (claimerNft + 1) % U64M)) := by
  refine ⟨fun claimer hne => ?_, fun hcount => ?_, fun hcount hfund => ?_⟩
  · unfold withdraw_nft
    rw [if_neg htime, if_pos hne]
  · unfold withdraw_nft
    rw [if_neg htime, if_neg (fun h => h rfl), if_pos hcount]
  · unfold withdraw_nft splTransfer
    rw [if_neg htime, if_neg (fun h => h rfl), if_neg (by omega),
      if_neg (by omega)]

/-- C5 witness: at the zero-entrant raffleC past its deadline, a non-creator
caller is rejected with NotCreator, the OtherEntrants branch is vacuous
(count = 0), and the creator reclaims the asset with whitelisted set to 3. -/
theorem withdraw_nft_resolution_witness :
    (∀ claimer, raffleC.creator ≠ claimer →
      withdraw_nft 25 claimer 1 0 raffleC = .error .NotCreator) ∧
    (raffleC.count ≠ 0 →
      withdraw_nft 25 raffleC.creator 1 0 raffleC = .error .OtherEntrants) ∧
    (raffleC.count = 0 → 1 ≤ 1 →
      withdraw_nft 25 raffleC.creator 1 0 raffleC =
        .ok ({ raffleC with whitelisted := 3 }, 0, 1 % U64M)) :=
  withdraw_nft_resolution 25 raffleC 1 0 (by decide)

/-- C4: claim_reward called at or after the end time on a SingleAsset raffle
(whitelisted = 1) fails with NotWinner for every caller other than the
identity in winner slot 0; for that winner, with the single escrowed asset
present, it succeeds, transfers the asset (escrow balance 1 falls to 0, the
claimer account gains one) and sets claimed slot 0; and re-claiming on the
resulting state fails because the escrow is empty — so the claim succeeds
exactly once. -/
theorem claim_reward_single_asset (timestamp : Int) (r : RafflePool)
    (htime : ¬ timestamp < r.end_timestamp)
    (hwl : r.whitelisted = 1)
    (hcl : 0 < r.claimed_winner.length) :
    (∀ claimer escrowNft claimerNft, claimer ≠ r.winner.getD 0 0 →
      claim_reward timestamp claimer escrowNft claimerNft r =
        .error .NotWinner) ∧
    (∀ claimerNft,
      claim_reward timestamp (r.winner.getD 0 0) 1 claimerNft r =
        .ok ({ r with claimed_winner := r.claimed_winner.set 0 1 }, 0,
             (claimerNft + 1) % U64M) ∧
      ({ r with claimed_winner := r.claimed_winner.set 0 1 } :
          RafflePool).claimed_winner.getD 0 0 = 1 ∧
      ∀ claimerNft2,
        claim_reward timestamp (r.winner.getD 0 0) 0 claimerNft2
            { r with claimed_winner := r.claimed_winner.set 0 1 } =
          .error .tokenInsufficientFunds) := by
  refine ⟨fun claimer escrowNft claimerNft hne => ?_, fun claimerNft =>
    ⟨?_, ?_, fun claimerNft2 => ?_⟩⟩
  · unfold claim_reward
    rw [if_neg htime, if_pos hwl, if_pos (fun h => hne h.symm)]
  · unfold claim_reward splTransfer
    rw [if_neg htime, if_pos hwl, if_neg (fun h => h rfl), if_neg (by omega)]
  · exact getD_set_self r.claimed_winner 0 1 0 hcl
  · unfold claim_reward splTransfer
    rw [if_neg htime, if_pos hwl, if_neg (fun h => h rfl), if_pos (by omega)]

/-- C4 witness: at raffleB (SingleAsset, winner slot 0 holds 77) past its
deadline: caller 55 is rejected with NotWinner; caller 77 with the escrowed
asset present succeeds, claimed slot 0 becomes 1, and the immediate re-claim
on the resulting state fails. -/
theorem claim_reward_single_asset_witness :
    (∀ claimer escrowNft claimerNft, claimer ≠ raffleB.winner.getD 0 0 →
      claim_reward 25 claimer escrowNft claimerNft raffleB =
        .error .NotWinner) ∧
    (∀ claimerNft,
      claim_reward 25 (raffleB.winner.getD 0 0) 1 claimerNft raffleB =
        .ok ({ raffleB with claimed_winner := raffleB.claimed_winner.set 0 1 },
             0, (claimerNft + 1) % U64M) ∧
      ({ raffleB with claimed_winner := raffleB.claimed_winner.set 0 1 } :
          RafflePool).claimed_winner.getD 0 0 = 1 ∧
      ∀ claimerNft2,
        claim_reward 25 (raffleB.winner.getD 0 0) 0 claimerNft2
            { raffleB with claimed_winner := raffleB.claimed_winner.set 0 1 } =
          .error .tokenInsufficientFunds) :=
  claim_reward_single_asset 25 raffleB (by decide) (by decide) (by decide)

theorem noRepeatUpdate_count (r : RafflePool) (buyer : Identity) :
    (noRepeatUpdate r buyer).count = r.count := by
  unfold noRepeatUpdate
  split
  · rename_i h0; simp [h0]
  · split <;> rfl

theorem noRepeatUpdate_entrants (r : RafflePool) (buyer : Identity) :
    (noRepeatUpdate r buyer).entrants = r.entrants := by
  unfold noRepeatUpdate
  split
  · rfl
  · split <;> rfl

theorem scanIndex_succ (entrants : List Identity) (n : Nat) (buyer : Identity) :
    scanIndex entrants (n + 1) buyer =
      if entrants.getD n 0 = buyer then n + 1 else scanIndex entrants n buyer := by
  unfold scanIndex
  rw [List.range_succ, List.foldl_append]
  rfl

theorem scanIndex_ne_zero_iff (entrants : List Identity) (buyer : Identity) :
    ∀ n, scanIndex entrants n buyer ≠ 0 ↔
      ∃ i, i < n ∧ entrants.getD i 0 = buyer := by
  intro n
  induction n with
  | zero =>
    constructor
    · intro h; exact absurd rfl h
    · rintro ⟨i, hi, _⟩; omega
  | succ m ih =>
    rw [scanIndex_succ]
    by_cases hm : entrants.getD m 0 = buyer
    · rw [if_pos hm]
      constructor
      · intro _; exact ⟨m, Nat.lt_succ_self m, hm⟩
      · intro _; omega
    · rw [if_neg hm, ih]
      constructor
      · rintro ⟨i, hi, he⟩; exact ⟨i, Nat.lt_succ_of_lt hi, he⟩
      · rintro ⟨i, hi, he⟩
        refine ⟨i, ?_, he⟩
        rcases Nat.lt_succ_iff_lt_or_eq.mp hi with h | h
        · exact h
        · subst h; exact absurd he hm

theorem buy_tickets_ok_shape (timestamp : Int) (buyer token_mint : Identity)
    (buyerLamports buyerReapBalance amount : Nat) (r r2 : RafflePool)
    (hok : buy_tickets timestamp buyer token_mint buyerLamports
      buyerReapBalance amount r = .ok r2) :
    r2 = appendN (noRepeatUpdate r buyer) buyer amount := by
  unfold buy_tickets at hok
  split at hok
  · cases hok
  · split at hok
    · cases hok
    · split at hok
      · cases hok
      · split at hok
        · cases hok
        · split at hok
          · cases hok
          · cases hok; rfl

theorem appendN_no_repeat (buyer : Identity) :
    ∀ (n : Nat) (r : RafflePool), (appendN r buyer n).no_repeat = r.no_repeat :=
  fun n r => ((appendN_keeps buyer n r).2).1

theorem appendN_getD_lt (buyer : Identity) :
    ∀ (n : Nat) (r : RafflePool) (i : Nat), i < r.count →
      (appendN r buyer n).entrants.getD i 0 = r.entrants.getD i 0 := by
  intro n
  induction n with
  | zero => intro r i _; rfl
  | succ m ih =>
    intro r i hi
    show (appendN (r.append buyer) buyer m).entrants.getD i 0 = _
    rw [ih (r.append buyer) i (by simp [RafflePool.append]; omega)]
    exact getD_set_ne r.entrants r.count i buyer 0 (by omega)

theorem appendN_getD_new (buyer : Identity) :
    ∀ (n : Nat) (r : RafflePool) (k : Nat), k < n →
      r.count + n ≤ r.entrants.length →
      (appendN r buyer n).entrants.getD (r.count + k) 0 = buyer := by
  intro n
  induction n with
  | zero => intro r k hk _; omega
  | succ m ih =>
    intro r k hk hcap
    show (appendN (r.append buyer) buyer m).entrants.getD (r.count + k) 0 = _
    cases k with
    | zero =>
      rw [appendN_getD_lt buyer m (r.append buyer) (r.count + 0)
        (by simp [RafflePool.append])]
      show (r.entrants.set r.count buyer).getD (r.count + 0) 0 = buyer
      exact getD_set_self r.entrants (r.count + 0) buyer 0 (by omega)
    | succ j =>
      have hstep : (r.append buyer).count + j = r.count + (j + 1) := by
        simp [RafflePool.append]; omega
      rw [← hstep]
      exact ih (r.append buyer) j (by omega)
        (by simp [RafflePool.append]; omega)

/-- C7 counterexample: a first purchase on an empty raffle (count 0, counter
no_repeat 0) by buyer 33, who holds no live ticket, succeeds and leaves the
counter at 1 — the code sets it rather than leaving it unchanged, so the
counter does not count only repeat purchases. -/
theorem no_repeat_first_purchase_counterexample :
    raffleC.no_repeat = 0 ∧ raffleC.count = 0 ∧
    buy_tickets 10 33 REAP_TOKEN_MINT 100 100 1 raffleC =
      .ok { raffleC with
             entrants := [33, 0, 0, 0, 0, 0], count := 1, no_repeat := 1 } ∧
    ({ raffleC with
        entrants := [33, 0, 0, 0, 0, 0], count := 1, no_repeat := 1 } :
      RafflePool).no_repeat ≠ raffleC.no_repeat := by
  refine ⟨rfl, rfl, ?_, by decide⟩
  rfl

/-- C7 amended: on every successful buy_tickets call, when the pre-purchase
count is 0 the no_repeat counter is set to 1 regardless of its previous
value; when count is nonzero the counter is incremented (mod 2^64) exactly
when the buyer already holds a live ticket in entrants[0..count), and left
unchanged otherwise. -/
theorem buy_tickets_no_repeat (timestamp : Int) (buyer token_mint : Identity)
    (buyerLamports buyerReapBalance amount : Nat) (r r2 : RafflePool)
    (hok : buy_tickets timestamp buyer token_mint buyerLamports
      buyerReapBalance amount r = .ok r2) :
    r2.no_repeat =
      (if r.count = 0 then 1
       else if ∃ i, i < r.count ∧ r.entrants.getD i 0 = buyer then
         (r.no_repeat + 1) % U64M
       else r.no_repeat) := by
  rw [buy_tickets_ok_shape timestamp buyer token_mint buyerLamports
    buyerReapBalance amount r r2 hok]
  rw [appendN_no_repeat]
  unfold noRepeatUpdate
  by_cases h0 : r.count = 0
  · rw [if_pos h0, if_pos h0]
  · rw [if_neg h0, if_neg h0]
    by_cases hs : scanIndex r.entrants r.count buyer ≠ 0
    · rw [if_pos hs, if_pos ((scanIndex_ne_zero_iff r.entrants buyer r.count).mp hs)]
    · rw [if_neg hs]
      rw [if_neg (fun he => hs ((scanIndex_ne_zero_iff r.entrants buyer r.count).mpr he))]

/-- C7 witness: buyer 11 already holds live tickets in raffleA (count 3), so
a successful 1-ticket purchase increments no_repeat from 0 to 1. -/
theorem buy_tickets_no_repeat_witness :
    ({ raffleA with
        entrants := [11, 22, 11, 11, 0, 0], count := 4, no_repeat := 1 } :
      RafflePool).no_repeat =
      (if raffleA.count = 0 then 1
       else if ∃ i, i < raffleA.count ∧ raffleA.entrants.getD i 0 = 11 then
         (raffleA.no_repeat + 1) % U64M
       else raffleA.no_repeat) :=
  buy_tickets_no_repeat 10 11 REAP_TOKEN_MINT 100 100 1 raffleA
    { raffleA with
       entrants := [11, 22, 11, 11, 0, 0], count := 4, no_repeat := 1 }
    (by rfl)

/-- C8: every successful buy_tickets call with ticket amount N appends
exactly N copies of the buyer identity to the live entrant sequence — count
grows by exactly N, all previously live slots keep their values (the new
copies land strictly after them, so the original order is untouched), and
the N new live slots all hold the buyer. -/
theorem buy_tickets_appends (timestamp : Int) (buyer token_mint : Identity)
    (buyerLamports buyerReapBalance amount : Nat) (r r2 : RafflePool)
    (hcap : r.count + amount ≤ r.entrants.length)
    (hok : buy_tickets timestamp buyer token_mint buyerLamports
      buyerReapBalance amount r = .ok r2) :
    r2.count = r.count + amount ∧
    (∀ i, i < r.count → r2.entrants.getD i 0 = r.entrants.getD i 0) ∧
    (∀ i, r.count ≤ i → i < r.count + amount → r2.entrants.getD i 0 = buyer) := by
  rw [buy_tickets_ok_shape timestamp buyer token_mint buyerLamports
    buyerReapBalance amount r r2 hok]
  refine ⟨?_, fun i hi => ?_, fun i hle hlt => ?_⟩
  · rw [appendN_count, noRepeatUpdate_count]
  · rw [appendN_getD_lt buyer amount (noRepeatUpdate r buyer) i
      (by rw [noRepeatUpdate_count]; exact hi)]
    rw [noRepeatUpdate_entrants]
  · have hnc : (noRepeatUpdate r buyer).count = r.count :=
      noRepeatUpdate_count r buyer
    have hk : i = (noRepeatUpdate r buyer).count + (i - r.count) := by omega
    rw [hk]
    exact appendN_getD_new buyer amount (noRepeatUpdate r buyer) (i - r.count)
      (by omega) (by rw [hnc, noRepeatUpdate_entrants]; omega)

/-- C8 witness: buyer 33 buys one ticket at raffleA (count 3, capacity 6):
count becomes 4, the three previously live slots are unchanged, and slot 3
holds the buyer. -/
theorem buy_tickets_appends_witness :
    ({ raffleA with entrants := [11, 22, 11, 33, 0, 0], count := 4 } :
        RafflePool).count = raffleA.count + 1 ∧
    (∀ i, i < raffleA.count →
      ({ raffleA with entrants := [11, 22, 11, 33, 0, 0], count := 4 } :
          RafflePool).entrants.getD i 0 = raffleA.entrants.getD i 0) ∧
    (∀ i, raffleA.count ≤ i → i < raffleA.count + 1 →
      ({ raffleA with entrants := [11, 22, 11, 33, 0, 0], count := 4 } :
          RafflePool).entrants.getD i 0 = 33) :=
  buy_tickets_appends 10 33 REAP_TOKEN_MINT 100 100 1 raffleA
    { raffleA with entrants := [11, 22, 11, 33, 0, 0], count := 4 }
    (by decide) (by rfl)

theorem revealFold_succ (dA : Int → String) (ts : Int) (r1 : RafflePool)
    (n : Nat) :
    revealFold dA ts r1 (n + 1) = drawStep dA ts (revealFold dA ts r1 n) n := by
  unfold revealFold
  rw [List.range_succ, List.foldl_append]
  rfl

theorem drawStep_count (dA : Int → String) (ts : Int) (st : RafflePool)
    (j : Nat) : (drawStep dA ts st j).count = st.count - 1 := rfl

theorem drawStep_winner (dA : Int → String) (ts : Int) (st : RafflePool)
    (j : Nat) :
    (drawStep dA ts st j).winner =
      st.winner.set j
        (st.entrants.getD (charMix (dA ts).data % st.count) 0) := rfl

theorem drawStep_entrants (dA : Int → String) (ts : Int) (st : RafflePool)
    (j : Nat) :
    (drawStep dA ts st j).entrants =
      st.entrants.set (charMix (dA ts).data % st.count)
        (st.entrants.getD (st.count - 1) 0) := rfl

theorem drawStep_winner_count (dA : Int → String) (ts : Int) (st : RafflePool)
    (j : Nat) : (drawStep dA ts st j).winner_count = st.winner_count := rfl

theorem take_at_getD (E : List Identity) (n : Nat) (hn : n < E.length) :
    E.take (n + 1) = E.take n ++ [E.getD n 0] := by
  rw [List.take_succ, List.getElem?_eq_getElem hn, List.getD_eq_getElem E 0 hn]
  rfl

theorem swap_remove_multiset (E : List Identity) (c wi : Nat)
    (hc : c ≤ E.length) (h0 : 0 < c) (hwi : wi < c) :
    ((E.set wi (E.getD (c - 1) 0)).take (c - 1) : Multiset Identity) +
      {E.getD wi 0} = (E.take c : Multiset Identity) := by
  have hc1 : c - 1 < E.length := by omega
  have htake : E.take c = E.take (c - 1) ++ [E.getD (c - 1) 0] := by
    have h2 := take_at_getD E (c - 1) hc1
    rwa [Nat.sub_add_cancel h0] at h2
  have hlen : (E.take (c - 1)).length = c - 1 := by
    rw [List.length_take]; omega
  have cA : ∀ (u v : List Identity),
      ((u ++ v : List Identity) : Multiset Identity) = ↑u + ↑v := fun u v => rfl
  have cC : ∀ (a : Identity) (u : List Identity),
      ((a :: u : List Identity) : Multiset Identity) = a ::ₘ ↑u := fun a u => rfl
  rw [List.set_take, htake]
  by_cases hlast : wi = c - 1
  · subst hlast
    rw [List.set_eq_of_length_le (by omega), cA, ← Multiset.coe_singleton]
  · have hwi2 : wi < c - 1 := by omega
    have hwiL : wi < (E.take (c - 1)).length := by omega
    have hgetd : E.getD wi 0 = (E.take (c - 1))[wi] := by
      rw [List.getD_eq_getElem E 0 (by omega)]
      rw [List.getElem_take]
    have hsplit : E.take (c - 1) =
        (E.take (c - 1)).take wi ++
          (E.take (c - 1))[wi] :: (E.take (c - 1)).drop (wi + 1) := by
      conv_lhs => rw [← List.take_append_drop wi (E.take (c - 1))]
      rw [List.drop_eq_getElem_cons hwiL]
    calc (((E.take (c - 1)).set wi (E.getD (c - 1) 0) : List Identity) :
            Multiset Identity) + {E.getD wi 0}
        = (((E.take (c - 1)).take wi ++ E.getD (c - 1) 0 ::
              (E.take (c - 1)).drop (wi + 1) : List Identity) :
            Multiset Identity) + {(E.take (c - 1))[wi]} := by
          rw [List.set_eq_take_cons_drop _ hwiL, hgetd]
      _ = (((E.take (c - 1)).take wi : List Identity) : Multiset Identity) +
            ({E.getD (c - 1) 0} +
              (((E.take (c - 1)).drop (wi + 1) : List Identity) :
                Multiset Identity)) + {(E.take (c - 1))[wi]} := by
          rw [cA, cC, ← Multiset.singleton_add]
      _ = (((E.take (c - 1)).take wi : List Identity) : Multiset Identity) +
            ({(E.take (c - 1))[wi]} +
              (((E.take (c - 1)).drop (wi + 1) : List Identity) :
                Multiset Identity)) + {E.getD (c - 1) 0} := by
          abel
      _ = (((E.take (c - 1)).take wi ++ (E.take (c - 1))[wi] ::
              (E.take (c - 1)).drop (wi + 1) : List Identity) :
            Multiset Identity) + {E.getD (c - 1) 0} := by
          rw [cA, cC, ← Multiset.singleton_add]
      _ = ((E.take (c - 1) : List Identity) : Multiset Identity) +
            {E.getD (c - 1) 0} := by
          rw [← hsplit]
      _ = ((E.take (c - 1) ++ [E.getD (c - 1) 0] : List Identity) :
            Multiset Identity) := by
          rw [cA, ← Multiset.coe_singleton]

theorem revealFold_invariant (dA : Int → String) (ts : Int) (r1 : RafflePool)
    (hwc : r1.winner_count ≤ r1.count)
    (hcap : r1.count ≤ r1.entrants.length)
    (hwin : r1.winner_count ≤ r1.winner.length) :
    ∀ k, k ≤ r1.winner_count →
      (revealFold dA ts r1 k).count = r1.count - k ∧
      (revealFold dA ts r1 k).entrants.length = r1.entrants.length ∧
      (revealFold dA ts r1 k).winner.length = r1.winner.length ∧
      (revealFold dA ts r1 k).winner_count = r1.winner_count ∧
      (∀ j, k ≤ j →
        (revealFold dA ts r1 k).winner.getD j 0 = r1.winner.getD j 0) ∧
      (∀ j, j < k →
        (revealFold dA ts r1 k).winner.getD j 0 =
          (revealFold dA ts r1 (j + 1)).winner.getD j 0) ∧
      (((revealFold dA ts r1 k).entrants.take (revealFold dA ts r1 k).count :
          Multiset Identity) +
        (((List.range k).map
          (fun j => (revealFold dA ts r1 k).winner.getD j 0) : List Identity) :
          Multiset Identity) =
        (r1.entrants.take r1.count : Multiset Identity)) := by
  intro k
  induction k with
  | zero =>
    intro _
    refine ⟨(Nat.sub_zero _).symm, rfl, rfl, rfl, fun j _ => rfl,
      fun j hj => absurd hj (by omega), ?_⟩
    show (r1.entrants.take r1.count : Multiset Identity) + ↑([] : List Identity) =
      (r1.entrants.take r1.count : Multiset Identity)
    rw [Multiset.coe_nil, add_zero]
  | succ k ih =>
    intro hk1
    have hk : k ≤ r1.winner_count := by omega
    obtain ⟨ic, ilen, iwlen, iwc, istable, iwritten, imset⟩ := ih hk
    have hpos : 0 < (revealFold dA ts r1 k).count := by omega
    have hwi : charMix (dA ts).data % (revealFold dA ts r1 k).count <
        (revealFold dA ts r1 k).count := Nat.mod_lt _ hpos
    have hkwin : k < (revealFold dA ts r1 k).winner.length := by omega
    have hstep := revealFold_succ dA ts r1 k
    refine ⟨?_, ?_, ?_, ?_, ?_, ?_, ?_⟩
    · rw [hstep, drawStep_count]; omega
    · rw [hstep, drawStep_entrants, List.length_set]; exact ilen
    · rw [hstep, drawStep_winner, List.length_set]; exact iwlen
    · rw [hstep, drawStep_winner_count]; exact iwc
    · intro j hj
      rw [hstep, drawStep_winner,
        getD_set_ne _ k j _ 0 (by omega)]
      exact istable j (by omega)
    · intro j hj
      rcases Nat.lt_succ_iff_lt_or_eq.mp hj with h | h
      · rw [hstep, drawStep_winner, getD_set_ne _ k j _ 0 (by omega)]
        exact iwritten j h
      · subst h; rfl
    · have hchosen : (revealFold dA ts r1 (k + 1)).winner.getD k 0 =
          (revealFold dA ts r1 k).entrants.getD
            (charMix (dA ts).data % (revealFold dA ts r1 k).count) 0 := by
        rw [hstep, drawStep_winner]
        exact getD_set_self _ k _ 0 hkwin
      have hmap : (List.range (k + 1)).map
            (fun j => (revealFold dA ts r1 (k + 1)).winner.getD j 0) =
          ((List.range k).map
            (fun j => (revealFold dA ts r1 k).winner.getD j 0)) ++
          [(revealFold dA ts r1 k).entrants.getD
            (charMix (dA ts).data % (revealFold dA ts r1 k).count) 0] := by
        rw [List.range_succ, List.map_append, List.map_singleton, hchosen]
        congr 1
        apply List.map_congr_left
        intro j hj
        rw [List.mem_range] at hj
        rw [hstep, drawStep_winner, getD_set_ne _ k j _ 0 (by omega)]
      have hswap := swap_remove_multiset (revealFold dA ts r1 k).entrants
        (revealFold dA ts r1 k).count
        (charMix (dA ts).data % (revealFold dA ts r1 k).count)
        (by omega) hpos hwi
      have hlive : ((revealFold dA ts r1 (k + 1)).entrants.take
            (revealFold dA ts r1 (k + 1)).count : Multiset Identity) =
          (((revealFold dA ts r1 k).entrants.set
              (charMix (dA ts).data % (revealFold dA ts r1 k).count)
              ((revealFold dA ts r1 k).entrants.getD
                ((revealFold dA ts r1 k).count - 1) 0)).take
            ((revealFold dA ts r1 k).count - 1) : Multiset Identity) := by
        rw [hstep, drawStep_entrants, drawStep_count]
      have cA : ∀ (u v : List Identity),
          ((u ++ v : List Identity) : Multiset Identity) = ↑u + ↑v :=
        fun u v => rfl
      rw [hmap, hlive, cA, Multiset.coe_singleton]
      rw [show ∀ (a b c : Multiset Identity), a + (b + c) = (a + c) + b from
        fun a b c => by abel]
      rw [hswap]
      exact imset

theorem clampWinnerCount_spec (r : RafflePool) :
    (clampWinnerCount r).winner_count = min r.winner_count r.count ∧
    (clampWinnerCount r).count = r.count ∧
    (clampWinnerCount r).entrants = r.entrants ∧
    (clampWinnerCount r).winner = r.winner ∧
    (clampWinnerCount r).end_timestamp = r.end_timestamp := by
  unfold clampWinnerCount
  split
  · rename_i h
    refine ⟨?_, rfl, rfl, rfl, rfl⟩
    show r.count = min r.winner_count r.count
    omega
  · rename_i h
    refine ⟨?_, rfl, rfl, rfl, rfl⟩
    show r.winner_count = min r.winner_count r.count
    omega

theorem reveal_winner_eq (dA : Int → String) (ts : Int) (r : RafflePool)
    (htime : ¬ ts < r.end_timestamp) :
    reveal_winner dA ts r =
      .ok (revealFold dA ts (clampWinnerCount r)
        (clampWinnerCount r).winner_count) := by
  unfold reveal_winner
  rw [if_neg htime]

/-- C1: for every raffle and call time at or past end_timestamp,
reveal_winner clamps winner_count to min(original, count) — down, never up —
and on return: the draw wrote exactly the first min(original, count) winner
slots (all later slots are untouched), every written winner slot holds an
element of the pre-draw live entrant prefix entrants[0..count), the post-draw
count is the pre-draw count minus the clamped winner_count, and the drawn
winner slots together with the remaining live entrants form exactly the
pre-draw live multiset — each winner consumed a distinct live entrant slot,
which is the without-replacement / no-duplicate-slot property (it holds for
every pool size; when count ≥ winner_count the clamp is the identity). -/
theorem reveal_winner_draw (dA : Int → String) (ts : Int) (r : RafflePool)
    (htime : ¬ ts < r.end_timestamp)
    (hcap : r.count ≤ r.entrants.length)
    (hwin : min r.winner_count r.count ≤ r.winner.length) :
    reveal_winner dA ts r =
      .ok (revealFold dA ts (clampWinnerCount r)
        (min r.winner_count r.count)) ∧
    (revealFold dA ts (clampWinnerCount r)
        (min r.winner_count r.count)).winner_count =
      min r.winner_count r.count ∧
    (revealFold dA ts (clampWinnerCount r)
        (min r.winner_count r.count)).count =
      r.count - min r.winner_count r.count ∧
    (∀ j, j < min r.winner_count r.count →
      (revealFold dA ts (clampWinnerCount r)
          (min r.winner_count r.count)).winner.getD j 0 ∈
        r.entrants.take r.count) ∧
    (∀ j, min r.winner_count r.count ≤ j →
      (revealFold dA ts (clampWinnerCount r)
          (min r.winner_count r.count)).winner.getD j 0 =
        r.winner.getD j 0) ∧
    (((revealFold dA ts (clampWinnerCount r)
          (min r.winner_count r.count)).entrants.take
        (revealFold dA ts (clampWinnerCount r)
          (min r.winner_count r.count)).count : Multiset Identity) +
      (((List.range (min r.winner_count r.count)).map
        (fun j => (revealFold dA ts (clampWinnerCount r)
          (min r.winner_count r.count)).winner.getD j 0) : List Identity) :
        Multiset Identity) =
      (r.entrants.take r.count : Multiset Identity)) := by
  obtain ⟨cwc, cc, ce, cw, cet⟩ := clampWinnerCount_spec r
  have hwc1 : (clampWinnerCount r).winner_count ≤ (clampWinnerCount r).count := by
    rw [cwc, cc]; omega
  have hcap1 : (clampWinnerCount r).count ≤
      (clampWinnerCount r).entrants.length := by
    rw [cc, ce]; exact hcap
  have hwin1 : (clampWinnerCount r).winner_count ≤
      (clampWinnerCount r).winner.length := by
    rw [cwc, cw]; exact hwin
  have hinv := revealFold_invariant dA ts (clampWinnerCount r) hwc1 hcap1 hwin1
    (clampWinnerCount r).winner_count (Nat.le_refl _)
  rw [cwc, cc, ce, cw] at hinv
  obtain ⟨ic, ilen, iwlen, iwc, istable, iwritten, imset⟩ := hinv
  refine ⟨?_, ?_, ic, fun j hj => ?_, fun j hj => ?_, imset⟩
  · rw [reveal_winner_eq dA ts r htime, cwc]
  · exact iwc
  · have hjm : (revealFold dA ts (clampWinnerCount r)
        (min r.winner_count r.count)).winner.getD j 0 ∈
        (List.range (min r.winner_count r.count)).map
          (fun j => (revealFold dA ts (clampWinnerCount r)
            (min r.winner_count r.count)).winner.getD j 0) :=
      List.mem_map_of_mem _ (List.mem_range.mpr hj)
    have hsum : (revealFold dA ts (clampWinnerCount r)
        (min r.winner_count r.count)).winner.getD j 0 ∈
        ((revealFold dA ts (clampWinnerCount r)
            (min r.winner_count r.count)).entrants.take
          (revealFold dA ts (clampWinnerCount r)
            (min r.winner_count r.count)).count : Multiset Identity) +
        (((List.range (min r.winner_count r.count)).map
          (fun j => (revealFold dA ts (clampWinnerCount r)
            (min r.winner_count r.count)).winner.getD j 0) : List Identity) :
          Multiset Identity) :=
      Multiset.mem_add.mpr (Or.inr hjm)
    rw [imset] at hsum
    exact hsum
  · exact istable j hj

/-- C1 witness: the draw theorem applied to raffleA (3 live entrants, 2
winners requested) at time 25 ≥ 20, with all hypotheses discharged
concretely. -/
theorem reveal_winner_draw_witness :
    reveal_winner deriveA 25 raffleA =
      .ok (revealFold deriveA 25 (clampWinnerCount raffleA)
        (min raffleA.winner_count raffleA.count)) ∧
    (revealFold deriveA 25 (clampWinnerCount raffleA)
        (min raffleA.winner_count raffleA.count)).winner_count =
      min raffleA.winner_count raffleA.count ∧
    (revealFold deriveA 25 (clampWinnerCount raffleA)
        (min raffleA.winner_count raffleA.count)).count =
      raffleA.count - min raffleA.winner_count raffleA.count ∧
    (∀ j, j < min raffleA.winner_count raffleA.count →
      (revealFold deriveA 25 (clampWinnerCount raffleA)
          (min raffleA.winner_count raffleA.count)).winner.getD j 0 ∈
        raffleA.entrants.take raffleA.count) ∧
    (∀ j, min raffleA.winner_count raffleA.count ≤ j →
      (revealFold deriveA 25 (clampWinnerCount raffleA)
          (min raffleA.winner_count raffleA.count)).winner.getD j 0 =
        raffleA.winner.getD j 0) ∧
    (((revealFold deriveA 25 (clampWinnerCount raffleA)
          (min raffleA.winner_count raffleA.count)).entrants.take
        (revealFold deriveA 25 (clampWinnerCount raffleA)
          (min raffleA.winner_count raffleA.count)).count : Multiset Identity) +
      (((List.range (min raffleA.winner_count raffleA.count)).map
        (fun j => (revealFold deriveA 25 (clampWinnerCount raffleA)
          (min raffleA.winner_count raffleA.count)).winner.getD j 0) :
          List Identity) : Multiset Identity) =
      (raffleA.entrants.take raffleA.count : Multiset Identity)) :=
  reveal_winner_draw deriveA 25 raffleA (by decide) (by decide) (by decide)

theorem getD_code_lt (cs : List Char) (hascii : ∀ c ∈ cs, c.toNat < 128) :
    ∀ i : Nat, (cs.getD i 'A').toNat < 128 := by
  intro i
  by_cases h : i < cs.length
  · rw [List.getD_eq_getElem cs 'A' h]
    exact hascii _ (List.getElem_mem h)
  · rw [List.getD_eq_default cs 'A' (by omega)]
    decide

theorem charMix_fold_plain (cs : List Char)
    (hascii : ∀ c ∈ cs, c.toNat < 128) (hlen : 8 ≤ cs.length) :
    ∀ n, n ≤ 7 →
      (List.range n).foldl
          (fun mul i => (mul * (cs.getD i 'A').toNat) % U64M) 1 =
        ((cs.take n).map Char.toNat).prod ∧
      ((cs.take n).map Char.toNat).prod ≤ 128 ^ n := by
  intro n
  induction n with
  | zero =>
    intro _
    constructor
    · rfl
    · simp
  | succ m ihm =>
    intro hm
    obtain ⟨ih1, ih2⟩ := ihm (by omega)
    have hmlen : m < cs.length := by omega
    have hcodem : cs[m].toNat < 128 := hascii _ (List.getElem_mem hmlen)
    have htk : cs.take (m + 1) = cs.take m ++ [cs[m]] := by
      rw [List.take_succ, List.getElem?_eq_getElem hmlen]
      rfl
    have hprod : ((cs.take (m + 1)).map Char.toNat).prod =
        ((cs.take m).map Char.toNat).prod * cs[m].toNat := by
      rw [htk, List.map_append, List.prod_append, List.map_singleton,
        List.prod_singleton]
    have hbound : ((cs.take (m + 1)).map Char.toNat).prod ≤ 128 ^ (m + 1) := by
      rw [hprod, pow_succ]
      exact Nat.mul_le_mul ih2 (Nat.le_of_lt hcodem)
    have hsmall : ((cs.take m).map Char.toNat).prod * cs[m].toNat < U64M := by
      have ha : ((cs.take m).map Char.toNat).prod * cs[m].toNat ≤
          128 ^ m * 127 := Nat.mul_le_mul ih2 (by omega)
      have h7 : (128 : Nat) ^ m ≤ 128 ^ 7 :=
        Nat.pow_le_pow_right (by omega) (by omega)
      have hb : (128 : Nat) ^ m * 127 ≤ 128 ^ 7 * 127 :=
        Nat.mul_le_mul_right _ h7
      have h64 : (128 : Nat) ^ 7 * 127 < U64M := by decide
      omega
    constructor
    · rw [List.range_succ, List.foldl_append, List.foldl_cons, List.foldl_nil,
        ih1, List.getD_eq_getElem cs 'A' hmlen, Nat.mod_eq_of_lt hsmall,
        hprod]
    · exact hbound

theorem charMix_plain (cs : List Char)
    (hascii : ∀ c ∈ cs, c.toNat < 128) (hlen : 8 ≤ cs.length) :
    charMix cs = ((cs.take 7).map Char.toNat).prod + (cs.getD 7 'A').toNat := by
  obtain ⟨h1, h2⟩ := charMix_fold_plain cs hascii hlen 7 (Nat.le_refl 7)
  have hcode7 : (cs.getD 7 'A').toNat < 128 := getD_code_lt cs hascii 7
  unfold charMix
  rw [h1]
  apply Nat.mod_eq_of_lt
  have h64 : (128 : Nat) ^ 7 + 128 < U64M := by decide
  omega

/-- C2: within one reveal_winner call every draw iteration derives its
pseudo-random identity from the same arguments — the fixed seed constant and
the single call timestamp, with no per-iteration counter — so each iteration
reuses one derived value; and the index drawn at iteration j equals the
product of the numeric codes of the first seven characters of that value's
textual encoding, plus the code of the eighth character, reduced modulo the
current count r.count - j (the mix term below does not depend on j, which is
exactly the identical-per-iteration property).  Stated for ASCII address
encodings of at least eight characters (base58 strings), whose u64 character
mixing cannot wrap. -/
theorem reveal_winner_index_formula (dA : Int → String) (ts : Int)
    (r : RafflePool)
    (hcap : r.count ≤ r.entrants.length)
    (hwin : min r.winner_count r.count ≤ r.winner.length)
    (hascii : ∀ c ∈ (dA ts).data, c.toNat < 128)
    (hlen8 : 8 ≤ (dA ts).data.length) :
    ∀ j, j < min r.winner_count r.count →
      (revealFold dA ts (clampWinnerCount r)
          (min r.winner_count r.count)).winner.getD j 0 =
        (revealFold dA ts (clampWinnerCount r) j).entrants.getD
          (((((dA ts).data.take 7).map Char.toNat).prod +
              ((dA ts).data.getD 7 'A').toNat) % (r.count - j)) 0 ∧
      (revealFold dA ts (clampWinnerCount r) j).count = r.count - j := by
  obtain ⟨cwc, cc, ce, cw, cet⟩ := clampWinnerCount_spec r
  have hwc1 : (clampWinnerCount r).winner_count ≤ (clampWinnerCount r).count := by
    rw [cwc, cc]; omega
  have hcap1 : (clampWinnerCount r).count ≤
      (clampWinnerCount r).entrants.length := by
    rw [cc, ce]; exact hcap
  have hwin1 : (clampWinnerCount r).winner_count ≤
      (clampWinnerCount r).winner.length := by
    rw [cwc, cw]; exact hwin
  intro j hj
  have hinvj := revealFold_invariant dA ts (clampWinnerCount r) hwc1 hcap1
    hwin1 j (by rw [cwc]; omega)
  obtain ⟨jc, jlen, jwlen, jwc, jstable, jwritten, jmset⟩ := hinvj
  rw [cc] at jc
  have hinvm := revealFold_invariant dA ts (clampWinnerCount r) hwc1 hcap1
    hwin1 (clampWinnerCount r).winner_count (Nat.le_refl _)
  rw [cwc] at hinvm
  obtain ⟨_, _, _, _, _, mwritten, _⟩ := hinvm
  have h1 : (revealFold dA ts (clampWinnerCount r)
        (min r.winner_count r.count)).winner.getD j 0 =
      (revealFold dA ts (clampWinnerCount r) (j + 1)).winner.getD j 0 :=
    mwritten j hj
  have hjwin : j < (revealFold dA ts (clampWinnerCount r) j).winner.length := by
    rw [cw] at jwlen
    omega
  have h2 : (revealFold dA ts (clampWinnerCount r) (j + 1)).winner.getD j 0 =
      (revealFold dA ts (clampWinnerCount r) j).entrants.getD
        (charMix (dA ts).data %
          (revealFold dA ts (clampWinnerCount r) j).count) 0 := by
    rw [revealFold_succ, drawStep_winner]
    exact getD_set_self _ j _ 0 hjwin
  refine ⟨?_, jc⟩
  rw [h1, h2, jc, charMix_plain (dA ts).data hascii hlen8]

/-- C2 witness: the index-formula theorem applied to raffleA at time 25 with
the concrete 8-character ASCII derivation deriveA, instantiated at the first
draw iteration j = 0. -/
theorem reveal_winner_index_formula_witness :
    (revealFold deriveA 25 (clampWinnerCount raffleA)
        (min raffleA.winner_count raffleA.count)).winner.getD 0 0 =
      (revealFold deriveA 25 (clampWinnerCount raffleA) 0).entrants.getD
        (((((deriveA 25).data.take 7).map Char.toNat).prod +
            ((deriveA 25).data.getD 7 'A').toNat) % (raffleA.count - 0)) 0 ∧
    (revealFold deriveA 25 (clampWinnerCount raffleA) 0).count =
      raffleA.count - 0 :=
  reveal_winner_index_formula deriveA 25 raffleA (by decide) (by decide)
    (by decide) (by decide) 0 (by decide)

/-- C10: after the initial clamp of winner_count down to count, the draw
loop at every iteration j sees a live count of exactly r.count - j, which is
at least 1, so the reduction of the mixed value modulo the current count is
a reduction by a positive divisor throughout — the modulo never divides by
zero. -/
theorem reveal_winner_modulus_positive (dA : Int → String) (ts : Int)
    (r : RafflePool)
    (htime : ¬ ts < r.end_timestamp)
    (hcap : r.count ≤ r.entrants.length)
    (hwin : min r.winner_count r.count ≤ r.winner.length) :
    reveal_winner dA ts r =
      .ok (revealFold dA ts (clampWinnerCount r)
        (min r.winner_count r.count)) ∧
    ∀ j, j < min r.winner_count r.count →
      (revealFold dA ts (clampWinnerCount r) j).count = r.count - j ∧
      0 < (revealFold dA ts (clampWinnerCount r) j).count ∧
      charMix (dA ts).data % (revealFold dA ts (clampWinnerCount r) j).count <
        (revealFold dA ts (clampWinnerCount r) j).count := by
  obtain ⟨cwc, cc, ce, cw, cet⟩ := clampWinnerCount_spec r
  have hwc1 : (clampWinnerCount r).winner_count ≤ (clampWinnerCount r).count := by
    rw [cwc, cc]; omega
  have hcap1 : (clampWinnerCount r).count ≤
      (clampWinnerCount r).entrants.length := by
    rw [cc, ce]; exact hcap
  have hwin1 : (clampWinnerCount r).winner_count ≤
      (clampWinnerCount r).winner.length := by
    rw [cwc, cw]; exact hwin
  constructor
  · rw [reveal_winner_eq dA ts r htime, cwc]
  · intro j hj
    have hinvj := revealFold_invariant dA ts (clampWinnerCount r) hwc1 hcap1
      hwin1 j (by rw [cwc]; omega)
    obtain ⟨jc, _, _, _, _, _, _⟩ := hinvj
    rw [cc] at jc
    have hpos : 0 < (revealFold dA ts (clampWinnerCount r) j).count := by omega
    exact ⟨jc, hpos, Nat.mod_lt _ hpos⟩

/-- C10 witness: the positive-modulus theorem applied to raffleA at time 25
with the concrete derivation deriveA. -/
theorem reveal_winner_modulus_positive_witness :
    reveal_winner deriveA 25 raffleA =
      .ok (revealFold deriveA 25 (clampWinnerCount raffleA)
        (min raffleA.winner_count raffleA.count)) ∧
    ∀ j, j < min raffleA.winner_count raffleA.count →
      (revealFold deriveA 25 (clampWinnerCount raffleA) j).count =
        raffleA.count - j ∧
      0 < (revealFold deriveA 25 (clampWinnerCount raffleA) j).count ∧
      charMix (deriveA 25).data %
          (revealFold deriveA 25 (clampWinnerCount raffleA) j).count <
        (revealFold deriveA 25 (clampWinnerCount raffleA) j).count :=
  reveal_winner_modulus_positive deriveA 25 raffleA (by decide) (by decide)
    (by decide)
